import Mathlib

/-!
Shallow embedding of the freeCodeCampOS test-run orchestrator
(the module exporting `runTests`, `checkTestsCallback`, `handleWorkerExit`,
`workerMessage` and the worker pool helpers).

Side effects — logging, socket publishes (`updateTests`, `updateTest`,
`updateConsole`, `updateHints`, `resetBottomPanel`, `handleProjectFinish`),
plugin lifecycle events (`onTestsStart`, `onLessonPassed`, `onLessonFailed`,
`onProjectFinished`, `onTestsEnd`), worker spawning and messaging, and state
persistence (`setProjectConfig`) — are modelled as an explicit event trace.

Hook code execution (`eval` for the Node runner, `runPython` for the Python
runner) may throw at runtime; this is modelled by a failure oracle
`fails : Hook → Bool` passed to every function that runs a hook.  An
exception thrown by hook code, or the `Unsupported runner` exception of the
`default` switch branch, is caught at the hook call site and logged; the
trace records the attempt (`hookStart`), then either the successful
execution (`hookRun`) or the caught failure (`hookFailed`).

The global `WORKER_POOL` array is passed explicitly as a `List WorkerHandle`
and returned updated.  Each `WorkerHandle` carries a ghost `runId` tag (not
present in the source) recording which run spawned it, so that statements
about "workers belonging to this run" can be expressed.
-/

/-- A lifecycle hook (`beforeAll` / `beforeEach` / `afterAll` / `afterEach`):
`{ runner, code }` in the source, or `null` (modelled by `Option Hook`). -/
structure Hook where
  runner : String
  code : String
deriving DecidableEq, Repr

/-- One test of a lesson: `{ text, code, runner }` in the lesson object. -/
structure Test where
  text : String
  code : String
  runner : String
deriving DecidableEq, Repr

/-- The lesson object returned by `pluginEvents.getLesson`, restricted to the
fields destructured by `runTests`. -/
structure Lesson where
  beforeAll : Option Hook
  beforeEach : Option Hook
  afterAll : Option Hook
  afterEach : Option Hook
  hints : List String
  tests : List Test
deriving DecidableEq, Repr

/-- Per-test mutable state built by `runTests`:
`{ passed, testText, testId, isLoading }`. -/
structure TestState where
  passed : Bool
  testText : String
  testId : Nat
  isLoading : Bool
deriving DecidableEq, Repr

/-- The project config fields read by the orchestrator. -/
structure Project where
  dashedName : String
  currentLesson : Nat
  numberOfLessons : Nat
  isIntegrated : Bool
  blockingTests : Bool
deriving DecidableEq, Repr

/-- A live worker handle in `WORKER_POOL`.  `name` is the name passed to
`createWorker`; `runId` is a ghost tag identifying the run that spawned the
worker (the source keeps no such association — the pool is process-wide). -/
structure WorkerHandle where
  name : String
  runId : Nat
deriving DecidableEq, Repr

/-- The `error` object carried by a worker message:
`{ type, message }` (the fields read by `workerMessage`).  A JS error with
no message is modelled by `message = ""` (falsy in the `if (error.message)`
check, exactly like `undefined`). -/
structure ErrObj where
  errType : String
  message : String
deriving DecidableEq, Repr

/-- A message posted back by a worker: `{ passed, testId, error }`. -/
structure WorkerMsg where
  passed : Bool
  testId : Nat
  error : Option ErrObj
deriving DecidableEq, Repr

/-- One observable side effect of the orchestrator. -/
inductive Event where
  | logError (msg : String)
  | hookStart (phase : String)
  | hookRun (phase : String) (runner : String)
  | hookFailed (phase : String)
  | onTestsStart (states : List TestState)
  | updateTests (states : List TestState)
  | updateTest (st : TestState)
  | updateConsoleClear
  | updateConsoleError (st : TestState) (error : String)
  | spawnWorker (name : String)
  | postMessage (testId : Nat)
  | onLessonPassed
  | onLessonFailed
  | resetBottomPanel
  | onProjectFinished
  | setCompletedDate (dashedName : String)
  | handleProjectFinish
  | setCurrentLesson (dashedName : String) (lesson : Nat)
  | runLessonTriggered (dashedName : String)
  | updateHints (hints : List String)
  | onTestsEnd (states : List TestState)
  | clearPool
  | logTestError (testId : Nat)
deriving DecidableEq, Repr

/-- The `switch (hook.runner)` statements recognise exactly the runners
`Node` and `Python`; every other id falls to the throwing `default` branch. -/
def supportedRunner (r : String) : Bool :=
  r = "Node" || r = "Python"

/-- One guarded hook invocation (the `try { switch ... } catch` blocks around
`beforeAll`, `afterEach` and `afterAll`): the attempt is always logged
(`hookStart`); an unsupported runner or a throw from the hook code is caught
and logged (`hookFailed`); otherwise the hook body runs (`hookRun`). -/
def runHookCaught (fails : Hook → Bool) (phase : String) (h : Hook) : List Event :=
  if supportedRunner h.runner && !fails h then
    [Event.hookStart phase, Event.hookRun phase h.runner]
  else
    [Event.hookStart phase, Event.hookFailed phase]

/-- Run an optional hook: absent hooks (`null`) are skipped entirely. -/
def hookEvents (fails : Hook → Bool) (phase : String) : Option Hook → List Event
  | some h => runHookCaught fails phase h
  | none => []

/-- The pass/fail decision part of `checkTestsCallback` (everything before the
`allTestsFinished` check): `passed = testsState.every(test => test.passed)`;
on pass, `onLessonPassed`, `resetBottomPanel`, then either the
project-finished branch (`project.isIntegrated || lessonNumber ===
project.numberOfLessons - 1`) or the advance branch; on fail,
`onLessonFailed` and `updateHints`. -/
def decisionEvents (project : Project) (hints : List String)
    (lessonNumber : Nat) (testsState : List TestState) : List Event :=
  if testsState.all (fun t => t.passed) then
    Event.onLessonPassed :: Event.resetBottomPanel ::
      (if project.isIntegrated = true ∨
          (lessonNumber : Int) = (project.numberOfLessons : Int) - 1 then
        [Event.onProjectFinished, Event.setCompletedDate project.dashedName,
         Event.handleProjectFinish]
      else
        [Event.setCurrentLesson project.dashedName (lessonNumber + 1),
         Event.runLessonTriggered project.dashedName])
  else
    [Event.onLessonFailed, Event.updateHints hints]

/-- `checkTestsCallback`: the aggregation check.  After the decision part, if
`allTestsFinished = testsState.every(test => !test.isLoading)`, it runs the
`afterAll` hook (guarded), awaits `pluginEvents.onTestsEnd`, and clears the
whole pool with `WORKER_POOL.splice(0, WORKER_POOL.length)`.  Returns the
updated pool and the emitted events. -/
def checkTestsCallback (fails : Hook → Bool) (project : Project)
    (hints : List String) (lessonNumber : Nat) (testsState : List TestState)
    (afterAll : Option Hook) (pool : List WorkerHandle) :
    List WorkerHandle × List Event :=
  if testsState.all (fun t => !t.isLoading) then
    ([], decisionEvents project hints lessonNumber testsState ++
      hookEvents fails "after-all" afterAll ++
      [Event.onTestsEnd testsState, Event.clearPool])
  else
    (pool, decisionEvents project hints lessonNumber testsState)

/-- Two consecutive invocations of `checkTestsCallback` with the same
`testsState` (the second receives the pool left by the first), with the two
traces concatenated. -/
def checkTwice (fails : Hook → Bool) (project : Project) (hints : List String)
    (lessonNumber : Nat) (testsState : List TestState) (afterAll : Option Hook)
    (pool : List WorkerHandle) : List WorkerHandle × List Event :=
  let r1 := checkTestsCallback fails project hints lessonNumber testsState afterAll pool
  let r2 := checkTestsCallback fails project hints lessonNumber testsState afterAll r1.1
  (r2.1, r1.2 ++ r2.2)

/-- The cancellation mutation applied by `handleWorkerExit` in blocking mode
(`i === undefined`) to each element of `testsState`: only still-loading tests
are touched. -/
def cancelTest (t : TestState) : TestState :=
  if t.isLoading then { t with isLoading := false, passed := false } else t

/-- The per-test `updateConsole` publishes of the blocking-mode cancellation
loop: one `Tests cancelled.` console entry per still-loading test, holding
the already-mutated state. -/
def cancelEventsBlocking (testsState : List TestState) : List Event :=
  testsState.flatMap (fun t =>
    if t.isLoading then
      [Event.updateConsoleError (cancelTest t) "Tests cancelled."]
    else [])

/-- The `if (exitCode === 1)` cancellation block of `handleWorkerExit`:
mark the affected test(s) failed and settled, publish `Tests cancelled.`
console entries, then publish the whole state with `updateTests`.  `i` is
`some idx` in parallel mode (the exiting worker owns test `idx`) and `none`
in blocking mode.  (For `i = some idx` with `idx` out of range the source
would throw; the orchestrator only ever passes indices of the spawn loop,
so that case is modelled as a no-op mutation.) -/
def cancelMutation (exitCode : Nat) (testsState : List TestState)
    (i : Option Nat) : List TestState × List Event :=
  if exitCode = 1 then
    match i with
    | some idx =>
      match testsState[idx]? with
      | some t =>
        let t1 := { t with isLoading := false, passed := false }
        (testsState.set idx t1,
          [Event.updateConsoleError t1 "Tests cancelled.",
           Event.updateTests (testsState.set idx t1)])
      | none => (testsState, [Event.updateTests testsState])
    | none =>
      let ts1 := testsState.map cancelTest
      (ts1, cancelEventsBlocking testsState ++ [Event.updateTests ts1])
  else
    (testsState, [])

/-- `handleWorkerExit`: on the cancellation sentinel `exitCode === 1`, apply
the cancellation block; then run the `afterEach` hook (guarded) even if
tests were cancelled; then invoke `checkTestsCallback`.  Returns the updated
`testsState`, the updated pool and the trace. -/
def handleWorkerExit (fails : Hook → Bool) (exitCode : Nat)
    (testsState : List TestState) (i : Option Nat) (afterEach : Option Hook)
    (project : Project) (hints : List String) (lessonNumber : Nat)
    (afterAll : Option Hook) (pool : List WorkerHandle) :
    List TestState × List WorkerHandle × List Event :=
  let mutated := cancelMutation exitCode testsState i
  let r := checkTestsCallback fails project hints lessonNumber mutated.1 afterAll pool
  (mutated.1, r.1,
    mutated.2 ++ hookEvents fails "after-each" afterEach ++ r.2)

/-- The `assertionTranslation || error.message` fallback of `workerMessage`:
the localization collaborator `t` yields `string | undefined`; JS `||` keeps
the original message when the translation is `undefined` or empty. -/
def localizedMessage (translate : String → Option String) (m : String) : String :=
  match translate m with
  | some s => if s = "" then m else s
  | none => m

/-- `workerMessage`: settle the reported test (`isLoading = false`,
`passed` as reported), log non-assertion errors, localize the error message
when present, publish the console error and the test update, then invoke
`checkTestsCallback`.  (A `testId` out of range would throw in the source;
workers only report ids of the spawn loop, so that case returns unchanged.) -/
def workerMessage (fails : Hook → Bool) (translate : String → Option String)
    (msg : WorkerMsg) (testsState : List TestState) (project : Project)
    (hints : List String) (lessonNumber : Nat) (afterAll : Option Hook)
    (pool : List WorkerHandle) :
    List TestState × List WorkerHandle × List Event :=
  match testsState[msg.testId]? with
  | none => (testsState, pool, [])
  | some t =>
    let t1 := { t with isLoading := false, passed := msg.passed }
    let ts1 := testsState.set msg.testId t1
    let errEvents : List Event :=
      match msg.error with
      | none => []
      | some e =>
        (if e.errType ≠ "AssertionError" then [Event.logTestError msg.testId]
         else []) ++
        [Event.updateConsoleError t1
          (if e.message ≠ "" then localizedMessage translate e.message
           else e.message)]
    let r := checkTestsCallback fails project hints lessonNumber ts1 afterAll pool
    (ts1, r.1, errEvents ++ [Event.updateTest t1] ++ r.2)

/-- The runner ids of the non-null entries of
`testers = [beforeAll, beforeEach, afterAll, afterEach, ...tests]`,
in iteration order. -/
def testerRunners (lesson : Lesson) : List String :=
  ([lesson.beforeAll, lesson.beforeEach, lesson.afterAll,
    lesson.afterEach].filterMap (fun h => h.map Hook.runner)) ++
    lesson.tests.map Test.runner

/-- The message of the runner-mismatch `Error` thrown by the consistency
loop of `runTests`. -/
def runnerMismatchMsg (found expected : String) : String :=
  "All tests and hooks must use the same runner. Found: " ++ found ++
    ", expected: " ++ expected

/-- The TypeError raised by `testers.filter(t => t !== null).at(0).runner`
when every hook is absent and the test list is empty (`.at(0)` is
`undefined`). -/
def typeErrorMsg : String :=
  "TypeError: cannot read runner of undefined"

/-- Build the initial `testsState` entries from index `i` on:
`{ passed: false, testText: t.text, testId: i, isLoading: !project.blockingTests }`. -/
def initTestsStateAux (blocking : Bool) (i : Nat) : List Test → List TestState
  | [] => []
  | t :: rest =>
    { passed := false, testText := t.text, testId := i,
      isLoading := !blocking } :: initTestsStateAux blocking (i + 1) rest

/-- `testsState = tests.map((t, i) => ...)` of `runTests`. -/
def initTestsState (lesson : Lesson) (blocking : Bool) : List TestState :=
  initTestsStateAux blocking 0 lesson.tests

/-- The dispatch section of `runTests`.  Blocking mode: one shared worker is
created first, then each test is marked loading, published, and posted to
that worker.  Parallel mode: per test, mark loading, publish, create the
test's own worker, post the test.  `ts` is the freshly built initial
`testsState`. -/
def dispatchEvents (blocking : Bool) (ts : List TestState) : List Event :=
  if blocking then
    Event.spawnWorker "blocking-worker" ::
      ts.flatMap (fun t =>
        [Event.updateTest { t with isLoading := true },
         Event.postMessage t.testId])
  else
    ts.flatMap (fun t =>
      [Event.updateTest { t with isLoading := true },
       Event.spawnWorker ("worker-" ++ toString t.testId),
       Event.postMessage t.testId])

/-- The synchronous part of `runTests` (everything inside the top-level
`try` up to the end of the dispatch loops; worker replies are handled by
`workerMessage` / `handleWorkerExit` later).  A throw — the TypeError of an
empty tester list or the runner-mismatch `Error` — is caught by the
top-level `catch`, which logs `Test Error: ` and the exception, and the
function returns normally.  Returns the trace and the `testsState` as left
by the dispatch loops (every entry loading). -/
def runTests (fails : Hook → Bool) (project : Project) (lesson : Lesson) :
    List Event × List TestState :=
  match (testerRunners lesson).head? with
  | none =>
    ([Event.logError "Test Error: ", Event.logError typeErrorMsg], [])
  | some firstRunner =>
    match (testerRunners lesson).find? (fun r => r ≠ firstRunner) with
    | some bad =>
      ([Event.logError "Test Error: ",
        Event.logError (runnerMismatchMsg bad firstRunner)], [])
    | none =>
      let ts0 := initTestsState lesson project.blockingTests
      (hookEvents fails "before-all" lesson.beforeAll ++
        [Event.onTestsStart ts0, Event.updateTests ts0,
         Event.updateConsoleClear] ++
        dispatchEvents project.blockingTests ts0,
       ts0.map (fun t => { t with isLoading := true }))

/-- `removeWorkerFromPool`: `indexOf` + `splice(index, 1)` removes the first
occurrence of the handle, if present. -/
def removeWorkerFromPool (pool : List WorkerHandle) (w : WorkerHandle) :
    List WorkerHandle :=
  pool.erase w

/-- Recogniser for an `afterAll` hook attempt in a trace. -/
def isAfterAllStart : Event → Bool
  | Event.hookStart p => p = "after-all"
  | _ => false

/-- Recogniser for a `beforeAll` hook attempt in a trace. -/
def isBeforeAllStart : Event → Bool
  | Event.hookStart p => p = "before-all"
  | _ => false

lemma mem_runHookCaught {fails : Hook → Bool} {phase : String} {h : Hook}
    {e : Event} (he : e ∈ runHookCaught fails phase h) :
    e = Event.hookStart phase ∨ e = Event.hookRun phase h.runner ∨
      e = Event.hookFailed phase := by
  unfold runHookCaught at he
  split at he <;> simp at he <;> tauto

lemma mem_hookEvents {fails : Hook → Bool} {phase : String} {oh : Option Hook}
    {e : Event} (he : e ∈ hookEvents fails phase oh) :
    ∃ h, oh = some h ∧ (e = Event.hookStart phase ∨
      e = Event.hookRun phase h.runner ∨ e = Event.hookFailed phase) := by
  cases oh with
  | none => simp [hookEvents] at he
  | some h => exact ⟨h, rfl, mem_runHookCaught he⟩

lemma decisionEvents_finish {project : Project} {hints : List String}
    {lessonNumber : Nat} {testsState : List TestState}
    (hpass : testsState.all (fun t => t.passed) = true)
    (hfin : project.isIntegrated = true ∨
      (lessonNumber : Int) = (project.numberOfLessons : Int) - 1) :
    decisionEvents project hints lessonNumber testsState =
      [Event.onLessonPassed, Event.resetBottomPanel, Event.onProjectFinished,
       Event.setCompletedDate project.dashedName, Event.handleProjectFinish] := by
  unfold decisionEvents
  rw [if_pos hpass, if_pos hfin]

lemma decisionEvents_advance {project : Project} {hints : List String}
    {lessonNumber : Nat} {testsState : List TestState}
    (hpass : testsState.all (fun t => t.passed) = true)
    (hfin : ¬ (project.isIntegrated = true ∨
      (lessonNumber : Int) = (project.numberOfLessons : Int) - 1)) :
    decisionEvents project hints lessonNumber testsState =
      [Event.onLessonPassed, Event.resetBottomPanel,
       Event.setCurrentLesson project.dashedName (lessonNumber + 1),
       Event.runLessonTriggered project.dashedName] := by
  unfold decisionEvents
  rw [if_pos hpass, if_neg hfin]

lemma checkEvents_eq (fails : Hook → Bool) (project : Project)
    (hints : List String) (lessonNumber : Nat) (testsState : List TestState)
    (afterAll : Option Hook) (pool : List WorkerHandle) :
    (checkTestsCallback fails project hints lessonNumber testsState afterAll
        pool).2 =
      decisionEvents project hints lessonNumber testsState ++
        (if testsState.all (fun t => !t.isLoading) then
          hookEvents fails "after-all" afterAll ++
            [Event.onTestsEnd testsState, Event.clearPool]
        else []) := by
  unfold checkTestsCallback
  split <;> simp

lemma tail_events_not_decision {fails : Hook → Bool} {afterAll : Option Hook}
    {testsState : List TestState} {e : Event}
    (he : e ∈ hookEvents fails "after-all" afterAll ++
      [Event.onTestsEnd testsState, Event.clearPool]) :
    (∀ d n, e ≠ Event.setCurrentLesson d n) ∧
    (∀ d, e ≠ Event.runLessonTriggered d) ∧
    e ≠ Event.onProjectFinished ∧
    (∀ d, e ≠ Event.setCompletedDate d) ∧
    e ≠ Event.handleProjectFinish := by
  rcases List.mem_append.mp he with hh | ht
  · rcases mem_hookEvents hh with ⟨h, _, h1 | h1 | h1⟩ <;> subst h1 <;> simp
  · simp at ht
    rcases ht with h1 | h1 <;> subst h1 <;> simp

/-- Claim C3: when the aggregation check runs with every test passed: if the
project is integrated or the current lesson number equals
`numberOfLessons - 1`, the project-finished event fires and a completion
timestamp is persisted with no `currentLesson` increment; otherwise
`currentLesson + 1` is persisted and the next lesson's run is triggered with
no project-finished notification. -/
theorem C3_progression_decision (fails : Hook → Bool) (project : Project)
    (hints : List String) (lessonNumber : Nat) (testsState : List TestState)
    (afterAll : Option Hook) (pool : List WorkerHandle)
    (hpass : testsState.all (fun t => t.passed) = true) :
    ((project.isIntegrated = true ∨
        (lessonNumber : Int) = (project.numberOfLessons : Int) - 1) →
      Event.onProjectFinished ∈
        (checkTestsCallback fails project hints lessonNumber testsState
          afterAll pool).2 ∧
      Event.setCompletedDate project.dashedName ∈
        (checkTestsCallback fails project hints lessonNumber testsState
          afterAll pool).2 ∧
      Event.handleProjectFinish ∈
        (checkTestsCallback fails project hints lessonNumber testsState
          afterAll pool).2 ∧
      (∀ d n, Event.setCurrentLesson d n ∉
        (checkTestsCallback fails project hints lessonNumber testsState
          afterAll pool).2) ∧
      (∀ d, Event.runLessonTriggered d ∉
        (checkTestsCallback fails project hints lessonNumber testsState
          afterAll pool).2)) ∧
    (¬ (project.isIntegrated = true ∨
        (lessonNumber : Int) = (project.numberOfLessons : Int) - 1) →
      Event.setCurrentLesson project.dashedName (lessonNumber + 1) ∈
        (checkTestsCallback fails project hints lessonNumber testsState
          afterAll pool).2 ∧
      Event.runLessonTriggered project.dashedName ∈
        (checkTestsCallback fails project hints lessonNumber testsState
          afterAll pool).2 ∧
      Event.onProjectFinished ∉
        (checkTestsCallback fails project hints lessonNumber testsState
          afterAll pool).2 ∧
      (∀ d, Event.setCompletedDate d ∉
        (checkTestsCallback fails project hints lessonNumber testsState
          afterAll pool).2) ∧
      Event.handleProjectFinish ∉
        (checkTestsCallback fails project hints lessonNumber testsState
          afterAll pool).2) := by
  rw [checkEvents_eq]
  constructor
  · intro hfin
    rw [decisionEvents_finish hpass hfin]
    refine ⟨by simp, by simp, by simp, ?_, ?_⟩
    · intro d n hmem
      rcases List.mem_append.mp hmem with hd | ht
      · simp at hd
      · split at ht
        · exact (tail_events_not_decision ht).1 d n rfl
        · simp at ht
    · intro d hmem
      rcases List.mem_append.mp hmem with hd | ht
      · simp at hd
      · split at ht
        · exact (tail_events_not_decision ht).2.1 d rfl
        · simp at ht
  · intro hfin
    rw [decisionEvents_advance hpass hfin]
    refine ⟨by simp, by simp, ?_, ?_, ?_⟩
    · intro hmem
      rcases List.mem_append.mp hmem with hd | ht
      · simp at hd
      · split at ht
        · exact (tail_events_not_decision ht).2.2.1 rfl
        · simp at ht
    · intro d hmem
      rcases List.mem_append.mp hmem with hd | ht
      · simp at hd
      · split at ht
        · exact (tail_events_not_decision ht).2.2.2.1 d rfl
        · simp at ht
    · intro hmem
      rcases List.mem_append.mp hmem with hd | ht
      · simp at hd
      · split at ht
        · exact (tail_events_not_decision ht).2.2.2.2 rfl
        · simp at ht

/-- A sample non-integrated, non-blocking project on lesson 0 of 3, used by
concrete witnesses. -/
def sampleProject : Project :=
  { dashedName := "sample-project", currentLesson := 0, numberOfLessons := 3,
    isIntegrated := false, blockingTests := false }

/-- A sample Node hook, used by concrete witnesses. -/
def sampleHookNode : Hook :=
  { runner := "Node", code := "sample" }

/-- A single settled, passed test state, used by concrete witnesses. -/
def settledPassedState : List TestState :=
  [{ passed := true, testText := "t0", testId := 0, isLoading := false }]

/-- Witness for C3 at a concrete input: one passed, settled test; a
non-integrated project on lesson 0 of 3, so the advance branch applies. -/
theorem C3_progression_decision_witness :
    (settledPassedState.all (fun t => t.passed) = true) ∧
    (¬ (sampleProject.isIntegrated = true ∨
        ((0 : Nat) : Int) = (sampleProject.numberOfLessons : Int) - 1) →
      Event.setCurrentLesson sampleProject.dashedName (0 + 1) ∈
        (checkTestsCallback (fun _ => false) sampleProject [] 0
          settledPassedState none []).2 ∧
      Event.runLessonTriggered sampleProject.dashedName ∈
        (checkTestsCallback (fun _ => false) sampleProject [] 0
          settledPassedState none []).2 ∧
      Event.onProjectFinished ∉
        (checkTestsCallback (fun _ => false) sampleProject [] 0
          settledPassedState none []).2 ∧
      (∀ d, Event.setCompletedDate d ∉
        (checkTestsCallback (fun _ => false) sampleProject [] 0
          settledPassedState none []).2) ∧
      Event.handleProjectFinish ∉
        (checkTestsCallback (fun _ => false) sampleProject [] 0
          settledPassedState none []).2) :=
  ⟨by decide,
   (C3_progression_decision (fun _ => false) sampleProject [] 0
      settledPassedState none [] (by decide)).2⟩

lemma handleWorkerExit_trace (fails : Hook → Bool) (exitCode : Nat)
    (testsState : List TestState) (i : Option Nat) (afterEach : Option Hook)
    (project : Project) (hints : List String) (lessonNumber : Nat)
    (afterAll : Option Hook) (pool : List WorkerHandle) :
    (handleWorkerExit fails exitCode testsState i afterEach project hints
        lessonNumber afterAll pool).2.2 =
      (cancelMutation exitCode testsState i).2 ++
        hookEvents fails "after-each" afterEach ++
        (checkTestsCallback fails project hints lessonNumber
          (cancelMutation exitCode testsState i).1 afterAll pool).2 := rfl

lemma handleWorkerExit_state (fails : Hook → Bool) (exitCode : Nat)
    (testsState : List TestState) (i : Option Nat) (afterEach : Option Hook)
    (project : Project) (hints : List String) (lessonNumber : Nat)
    (afterAll : Option Hook) (pool : List WorkerHandle) :
    (handleWorkerExit fails exitCode testsState i afterEach project hints
        lessonNumber afterAll pool).1 =
      (cancelMutation exitCode testsState i).1 := rfl

/-- Claim C4: in blocking mode, when the shared worker exits with the
cancellation sentinel exit code 1, every test whose `isLoading` is still
true is set to `passed = false` and `isLoading = false` with a
`Tests cancelled.` error published, and every test that had already settled
keeps its `passed` and `isLoading` values unchanged. -/
theorem C4_blocking_cancel (fails : Hook → Bool) (testsState : List TestState)
    (afterEach : Option Hook) (project : Project) (hints : List String)
    (lessonNumber : Nat) (afterAll : Option Hook) (pool : List WorkerHandle)
    (j : Nat) (t : TestState) (hj : testsState[j]? = some t) :
    (t.isLoading = true →
      (handleWorkerExit fails 1 testsState none afterEach project hints
          lessonNumber afterAll pool).1[j]? =
        some { t with isLoading := false, passed := false } ∧
      Event.updateConsoleError { t with isLoading := false, passed := false }
          "Tests cancelled." ∈
        (handleWorkerExit fails 1 testsState none afterEach project hints
          lessonNumber afterAll pool).2.2) ∧
    (t.isLoading = false →
      (handleWorkerExit fails 1 testsState none afterEach project hints
          lessonNumber afterAll pool).1[j]? = some t) := by
  have hstate : (handleWorkerExit fails 1 testsState none afterEach project
      hints lessonNumber afterAll pool).1 = testsState.map cancelTest := rfl
  constructor
  · intro hload
    constructor
    · rw [hstate, List.getElem?_map, hj]
      simp [cancelTest, hload]
    · have hmemt : t ∈ testsState := List.getElem?_mem hj
      have hmem : Event.updateConsoleError
          { t with isLoading := false, passed := false } "Tests cancelled." ∈
          cancelEventsBlocking testsState := by
        refine List.mem_flatMap.mpr ⟨t, hmemt, ?_⟩
        simp [hload, cancelTest]
      rw [handleWorkerExit_trace]
      have hc : (cancelMutation 1 testsState none).2 =
          cancelEventsBlocking testsState ++
            [Event.updateTests (testsState.map cancelTest)] := rfl
      simp only [hc, List.mem_append]
      tauto
  · intro hload
    rw [hstate, List.getElem?_map, hj]
    simp [cancelTest, hload]

/-- Witness for C4 at a concrete input: two tests, one still loading and one
already settled as passed; the loading one is cancelled, the settled one is
untouched. -/
theorem C4_blocking_cancel_witness :
    (([{ passed := false, testText := "a", testId := 0, isLoading := true },
       { passed := true, testText := "b", testId := 1, isLoading := false }] :
        List TestState)[0]? =
      some { passed := false, testText := "a", testId := 0,
             isLoading := true }) ∧
    (({ passed := false, testText := "a", testId := 0, isLoading := true } :
        TestState).isLoading = true →
      (handleWorkerExit (fun _ => false) 1
          [{ passed := false, testText := "a", testId := 0, isLoading := true },
           { passed := true, testText := "b", testId := 1, isLoading := false }]
          none none sampleProject [] 0 none []).1[0]? =
        some { passed := false, testText := "a", testId := 0,
               isLoading := false } ∧
      Event.updateConsoleError
          { passed := false, testText := "a", testId := 0, isLoading := false }
          "Tests cancelled." ∈
        (handleWorkerExit (fun _ => false) 1
          [{ passed := false, testText := "a", testId := 0, isLoading := true },
           { passed := true, testText := "b", testId := 1, isLoading := false }]
          none none sampleProject [] 0 none []).2.2) := by
  refine ⟨by decide, ?_⟩
  have h := (C4_blocking_cancel (fun _ => false)
      [{ passed := false, testText := "a", testId := 0, isLoading := true },
       { passed := true, testText := "b", testId := 1, isLoading := false }]
      none sampleProject [] 0 none [] 0
      { passed := false, testText := "a", testId := 0, isLoading := true }
      (by decide)).1
  exact h

/-- Claim C5: in parallel mode, when one worker exits with the cancellation
sentinel exit code 1, only the state of the test owned by that worker
(index `i`) is changed (to `passed = false`, `isLoading = false`, with a
cancellation error); the state entries of every other test are left
unchanged. -/
theorem C5_parallel_cancel_frame (fails : Hook → Bool)
    (testsState : List TestState) (afterEach : Option Hook) (project : Project)
    (hints : List String) (lessonNumber : Nat) (afterAll : Option Hook)
    (pool : List WorkerHandle) (idx : Nat) (t : TestState)
    (hidx : testsState[idx]? = some t) :
    (handleWorkerExit fails 1 testsState (some idx) afterEach project hints
        lessonNumber afterAll pool).1[idx]? =
      some { t with isLoading := false, passed := false } ∧
    (∀ j, j ≠ idx →
      (handleWorkerExit fails 1 testsState (some idx) afterEach project hints
          lessonNumber afterAll pool).1[j]? = testsState[j]?) ∧
    Event.updateConsoleError { t with isLoading := false, passed := false }
        "Tests cancelled." ∈
      (handleWorkerExit fails 1 testsState (some idx) afterEach project hints
        lessonNumber afterAll pool).2.2 := by
  have hlt : idx < testsState.length := by
    rcases List.getElem?_eq_some.mp hidx with ⟨h, _⟩
    exact h
  have hstate : (handleWorkerExit fails 1 testsState (some idx) afterEach
      project hints lessonNumber afterAll pool).1 =
      testsState.set idx { t with isLoading := false, passed := false } := by
    rw [handleWorkerExit_state]
    simp [cancelMutation, hidx]
  refine ⟨?_, ?_, ?_⟩
  · rw [hstate]
    simp [List.getElem?_set_self, hlt]
  · intro j hj
    rw [hstate]
    exact List.getElem?_set_ne fun he => hj he.symm
  · rw [handleWorkerExit_trace]
    have hc : (cancelMutation 1 testsState (some idx)).2 =
        [Event.updateConsoleError
            { t with isLoading := false, passed := false } "Tests cancelled.",
         Event.updateTests (testsState.set idx
            { t with isLoading := false, passed := false })] := by
      simp [cancelMutation, hidx]
    rw [hc]
    simp

/-- Witness for C5 at a concrete input: two loading tests; worker 0 is
cancelled, test 1 keeps its state. -/
theorem C5_parallel_cancel_frame_witness :
    (([{ passed := false, testText := "a", testId := 0, isLoading := true },
       { passed := false, testText := "b", testId := 1, isLoading := true }] :
        List TestState)[0]? =
      some { passed := false, testText := "a", testId := 0,
             isLoading := true }) ∧
    ((handleWorkerExit (fun _ => false) 1
        [{ passed := false, testText := "a", testId := 0, isLoading := true },
         { passed := false, testText := "b", testId := 1, isLoading := true }]
        (some 0) none sampleProject [] 0 none []).1[0]? =
      some { passed := false, testText := "a", testId := 0,
             isLoading := false } ∧
    (∀ j, j ≠ 0 →
      (handleWorkerExit (fun _ => false) 1
          [{ passed := false, testText := "a", testId := 0, isLoading := true },
           { passed := false, testText := "b", testId := 1, isLoading := true }]
          (some 0) none sampleProject [] 0 none []).1[j]? =
        ([{ passed := false, testText := "a", testId := 0, isLoading := true },
          { passed := false, testText := "b", testId := 1,
            isLoading := true }] : List TestState)[j]?) ∧
    Event.updateConsoleError
        { passed := false, testText := "a", testId := 0, isLoading := false }
        "Tests cancelled." ∈
      (handleWorkerExit (fun _ => false) 1
        [{ passed := false, testText := "a", testId := 0, isLoading := true },
         { passed := false, testText := "b", testId := 1, isLoading := true }]
        (some 0) none sampleProject [] 0 none []).2.2) :=
  ⟨by decide,
   C5_parallel_cancel_frame (fun _ => false)
     [{ passed := false, testText := "a", testId := 0, isLoading := true },
      { passed := false, testText := "b", testId := 1, isLoading := true }]
     none sampleProject [] 0 none [] 0
     { passed := false, testText := "a", testId := 0, isLoading := true }
     (by decide)⟩

/-- Claim C6: on every worker exit, including exits caused by cancellation,
the `afterEach` hook (when present) executes before the aggregation check is
invoked, and any failure thrown by the `afterEach` hook is caught and logged
without preventing the subsequent aggregation check from running: the trace
is the cancellation block, then the `afterEach` hook events, then the full
`checkTestsCallback` trace, for every exit code and every failure oracle. -/
theorem C6_afterEach_then_aggregation (fails : Hook → Bool) (exitCode : Nat)
    (testsState : List TestState) (i : Option Nat) (afterEach : Option Hook)
    (project : Project) (hints : List String) (lessonNumber : Nat)
    (afterAll : Option Hook) (pool : List WorkerHandle)
    (_hi : i = none ∨ ∃ idx, i = some idx ∧ idx < testsState.length) :
    ∃ pre,
      (handleWorkerExit fails exitCode testsState i afterEach project hints
          lessonNumber afterAll pool).2.2 =
        pre ++ hookEvents fails "after-each" afterEach ++
          (checkTestsCallback fails project hints lessonNumber
            (handleWorkerExit fails exitCode testsState i afterEach project
              hints lessonNumber afterAll pool).1 afterAll pool).2 ∧
      (∀ p, Event.hookStart p ∉ pre) ∧
      (∀ h, afterEach = some h →
        Event.hookStart "after-each" ∈
          hookEvents fails "after-each" afterEach) ∧
      (∀ h, afterEach = some h → fails h = true →
        Event.hookFailed "after-each" ∈
          hookEvents fails "after-each" afterEach) := by
  refine ⟨(cancelMutation exitCode testsState i).2, ?_, ?_, ?_, ?_⟩
  · rw [handleWorkerExit_trace, handleWorkerExit_state]
  · intro p hp
    unfold cancelMutation at hp
    split at hp
    · split at hp
      · split at hp <;> simp at hp
      · rcases List.mem_append.mp hp with h1 | h1
        · rcases List.mem_flatMap.mp h1 with ⟨t, _, h2⟩
          split at h2 <;> simp at h2
        · simp at h1
    · simp at hp
  · intro h hh
    subst hh
    show Event.hookStart "after-each" ∈ runHookCaught fails "after-each" h
    unfold runHookCaught
    split <;> simp
  · intro h hh hf
    subst hh
    show Event.hookFailed "after-each" ∈ runHookCaught fails "after-each" h
    unfold runHookCaught
    simp [hf]

/-- Witness for C6 at a concrete input: a cancellation exit (code 1) in
blocking mode with an `afterEach` hook whose execution fails (oracle always
true); the aggregation trace still follows the hook events. -/
theorem C6_afterEach_then_aggregation_witness :
    ((none : Option Nat) = none ∨
      ∃ idx, (none : Option Nat) = some idx ∧
        idx < (settledPassedState).length) ∧
    (∃ pre,
      (handleWorkerExit (fun _ => true) 1 settledPassedState none
          (some sampleHookNode) sampleProject [] 0 none []).2.2 =
        pre ++ hookEvents (fun _ => true) "after-each" (some sampleHookNode) ++
          (checkTestsCallback (fun _ => true) sampleProject [] 0
            (handleWorkerExit (fun _ => true) 1 settledPassedState none
              (some sampleHookNode) sampleProject [] 0 none []).1
            none []).2 ∧
      (∀ p, Event.hookStart p ∉ pre) ∧
      (∀ h, (some sampleHookNode : Option Hook) = some h →
        Event.hookStart "after-each" ∈
          hookEvents (fun _ => true) "after-each" (some sampleHookNode)) ∧
      (∀ h, (some sampleHookNode : Option Hook) = some h →
        (fun _ => true) h = true →
        Event.hookFailed "after-each" ∈
          hookEvents (fun _ => true) "after-each" (some sampleHookNode))) :=
  ⟨Or.inl rfl,
   C6_afterEach_then_aggregation (fun _ => true) 1 settledPassedState none
     (some sampleHookNode) sampleProject [] 0 none [] (Or.inl rfl)⟩

/-- Claim C2: for every run whose hooks and tests do not all share one runner
identifier, `runTests` aborts with a runner-mismatch error before any worker
is spawned and before the `beforeAll` hook or any state publish executes:
the trace is exactly the two top-level error logs. -/
theorem C2_runner_mismatch_aborts (fails : Hook → Bool) (project : Project)
    (lesson : Lesson) (fr r : String)
    (hfr : (testerRunners lesson).head? = some fr)
    (hr : r ∈ testerRunners lesson) (hne : r ≠ fr) :
    ∃ bad, bad ∈ testerRunners lesson ∧ bad ≠ fr ∧
      runTests fails project lesson =
        ([Event.logError "Test Error: ",
          Event.logError (runnerMismatchMsg bad fr)], []) ∧
      (∀ n, Event.spawnWorker n ∉ (runTests fails project lesson).1) ∧
      (∀ p, Event.hookStart p ∉ (runTests fails project lesson).1) ∧
      (∀ s, Event.updateTests s ∉ (runTests fails project lesson).1) ∧
      (∀ s, Event.onTestsStart s ∉ (runTests fails project lesson).1) := by
  cases hfind : (testerRunners lesson).find? (fun x => x ≠ fr) with
  | none =>
    exfalso
    have hno := List.find?_eq_none.mp hfind r hr
    simp at hno
    exact hne hno
  | some bad =>
    have hbadmem : bad ∈ testerRunners lesson :=
      List.mem_of_find?_eq_some hfind
    have hbadne : bad ≠ fr := by
      have hp := List.find?_some hfind
      simpa using hp
    have heq : runTests fails project lesson =
        ([Event.logError "Test Error: ",
          Event.logError (runnerMismatchMsg bad fr)], []) := by
      unfold runTests
      simp only [hfr, hfind]
    refine ⟨bad, hbadmem, hbadne, heq, ?_, ?_, ?_, ?_⟩ <;>
      · intro x hx
        rw [heq] at hx
        simp at hx

/-- A lesson with a Node `beforeAll` hook and a Python test: the runner ids
disagree. -/
def mismatchLesson : Lesson :=
  { beforeAll := some { runner := "Node", code := "a" },
    beforeEach := none, afterAll := none, afterEach := none,
    hints := [], tests := [{ text := "t", code := "c", runner := "Python" }] }

/-- Witness for C2 at a concrete input: `mismatchLesson` resolves the first
runner as Node and then meets the Python test. -/
theorem C2_runner_mismatch_aborts_witness :
    ((testerRunners mismatchLesson).head? = some "Node") ∧
    ("Python" ∈ testerRunners mismatchLesson) ∧
    ("Python" ≠ "Node") ∧
    (∃ bad, bad ∈ testerRunners mismatchLesson ∧ bad ≠ "Node" ∧
      runTests (fun _ => false) sampleProject mismatchLesson =
        ([Event.logError "Test Error: ",
          Event.logError (runnerMismatchMsg bad "Node")], []) ∧
      (∀ n, Event.spawnWorker n ∉
        (runTests (fun _ => false) sampleProject mismatchLesson).1) ∧
      (∀ p, Event.hookStart p ∉
        (runTests (fun _ => false) sampleProject mismatchLesson).1) ∧
      (∀ s, Event.updateTests s ∉
        (runTests (fun _ => false) sampleProject mismatchLesson).1) ∧
      (∀ s, Event.onTestsStart s ∉
        (runTests (fun _ => false) sampleProject mismatchLesson).1)) :=
  ⟨by decide, by decide, by decide,
   C2_runner_mismatch_aborts (fun _ => false) sampleProject mismatchLesson
     "Node" "Python" (by decide) (by decide) (by decide)⟩

lemma initTestsStateAux_getElem (blocking : Bool) :
    ∀ (l : List Test) (i j : Nat),
      (initTestsStateAux blocking i l)[j]? =
        l[j]?.map (fun t =>
          { passed := false, testText := t.text, testId := i + j,
            isLoading := !blocking }) := by
  intro l
  induction l with
  | nil =>
    intro i j
    simp [initTestsStateAux]
  | cons hd tl ih =>
    intro i j
    cases j with
    | zero => simp [initTestsStateAux]
    | succ j =>
      have hadd : i + 1 + j = i + (j + 1) := by omega
      simp [initTestsStateAux, ih (i + 1) j, hadd]

lemma initTestsState_getElem (lesson : Lesson) (blocking : Bool) (j : Nat) :
    (initTestsState lesson blocking)[j]? =
      lesson.tests[j]?.map (fun t =>
        { passed := false, testText := t.text, testId := j,
          isLoading := !blocking }) := by
  have h := initTestsStateAux_getElem blocking lesson.tests 0 j
  simpa [initTestsState] using h

lemma postMessage_mem_dispatchEvents {blocking : Bool} {ts : List TestState}
    {t : TestState} (ht : t ∈ ts) :
    Event.postMessage t.testId ∈ dispatchEvents blocking ts := by
  unfold dispatchEvents
  split
  · exact List.mem_cons_of_mem _ (List.mem_flatMap.mpr ⟨t, ht, by simp⟩)
  · exact List.mem_flatMap.mpr ⟨t, ht, by simp⟩

lemma mem_dispatchEvents {blocking : Bool} {ts : List TestState} {e : Event}
    (he : e ∈ dispatchEvents blocking ts) :
    (∃ n, e = Event.spawnWorker n) ∨ (∃ t, e = Event.updateTest t) ∨
      (∃ i, e = Event.postMessage i) := by
  unfold dispatchEvents at he
  split at he
  · rcases List.mem_cons.mp he with h1 | h1
    · exact Or.inl ⟨_, h1⟩
    · rcases List.mem_flatMap.mp h1 with ⟨t, _, h2⟩
      simp at h2
      rcases h2 with h2 | h2
      · exact Or.inr (Or.inl ⟨_, h2⟩)
      · exact Or.inr (Or.inr ⟨_, h2⟩)
  · rcases List.mem_flatMap.mp he with ⟨t, _, h2⟩
    simp at h2
    rcases h2 with h2 | h2 | h2
    · exact Or.inr (Or.inl ⟨_, h2⟩)
    · exact Or.inl ⟨_, h2⟩
    · exact Or.inr (Or.inr ⟨_, h2⟩)

lemma runHookCaught_filter_isBeforeAllStart (fails : Hook → Bool) (h : Hook) :
    (runHookCaught fails "before-all" h).filter isBeforeAllStart =
      [Event.hookStart "before-all"] := by
  unfold runHookCaught
  split <;> simp [isBeforeAllStart]

/-- Claim C8: for every run with a non-absent `beforeAll` hook whose runner
ids are consistent, the hook is attempted exactly once, its events precede
every dispatch event (so it runs before any test worker is created), and —
for every failure oracle, so in particular when the hook throws — the test
states are still built, published, and dispatched to workers afterwards. -/
theorem C8_beforeAll_once_before_workers (fails : Hook → Bool)
    (project : Project) (lesson : Lesson) (h : Hook)
    (hBA : lesson.beforeAll = some h)
    (hNoMis : ∀ r ∈ testerRunners lesson, r = h.runner) :
    ∃ rest,
      (runTests fails project lesson).1 =
        runHookCaught fails "before-all" h ++ rest ∧
      ((runHookCaught fails "before-all" h).filter isBeforeAllStart).length
        = 1 ∧
      (∀ e ∈ runHookCaught fails "before-all" h, ∀ n,
        e ≠ Event.spawnWorker n) ∧
      rest.filter isBeforeAllStart = [] ∧
      Event.updateTests (initTestsState lesson project.blockingTests) ∈
        rest ∧
      (∀ i < lesson.tests.length, Event.postMessage i ∈ rest) := by
  have hfr : (testerRunners lesson).head? = some h.runner := by
    simp [testerRunners, hBA]
  have hfind : (testerRunners lesson).find? (fun x => x ≠ h.runner) =
      none := by
    rw [List.find?_eq_none]
    intro x hx
    simp [hNoMis x hx]
  have heq : (runTests fails project lesson).1 =
      runHookCaught fails "before-all" h ++
        ([Event.onTestsStart (initTestsState lesson project.blockingTests),
          Event.updateTests (initTestsState lesson project.blockingTests),
          Event.updateConsoleClear] ++
          dispatchEvents project.blockingTests
            (initTestsState lesson project.blockingTests)) := by
    unfold runTests
    simp only [hfr, hfind]
    simp [hBA, hookEvents]
  refine ⟨_, heq, ?_, ?_, ?_, ?_, ?_⟩
  · rw [runHookCaught_filter_isBeforeAllStart]
    rfl
  · intro e he n
    rcases mem_runHookCaught he with h1 | h1 | h1 <;> subst h1 <;> simp
  · rw [List.filter_append]
    have h1 : ([Event.onTestsStart
          (initTestsState lesson project.blockingTests),
        Event.updateTests (initTestsState lesson project.blockingTests),
        Event.updateConsoleClear]).filter isBeforeAllStart = [] := by
      simp [isBeforeAllStart]
    have h2 : (dispatchEvents project.blockingTests
        (initTestsState lesson project.blockingTests)).filter
          isBeforeAllStart = [] := by
      rw [List.filter_eq_nil_iff]
      intro e he
      rcases mem_dispatchEvents he with ⟨n, h3⟩ | ⟨t, h3⟩ | ⟨i, h3⟩ <;>
        subst h3 <;> simp [isBeforeAllStart]
    rw [h1, h2]
    rfl
  · simp
  · intro i hi
    have htest : lesson.tests[i]? = some (lesson.tests[i]) :=
      List.getElem?_eq_some.mpr ⟨hi, rfl⟩
    have hst : (initTestsState lesson project.blockingTests)[i]? =
        some { passed := false, testText := (lesson.tests[i]).text,
               testId := i, isLoading := !project.blockingTests } := by
      rw [initTestsState_getElem, htest]
      rfl
    have hmem := List.getElem?_mem hst
    have hpost : Event.postMessage i ∈
        dispatchEvents project.blockingTests
          (initTestsState lesson project.blockingTests) :=
      postMessage_mem_dispatchEvents hmem
    exact List.mem_append_right _ hpost

/-- A lesson with a Node `beforeAll` hook and one Node test. -/
def beforeAllLesson : Lesson :=
  { beforeAll := some sampleHookNode, beforeEach := none, afterAll := none,
    afterEach := none, hints := [],
    tests := [{ text := "t", code := "c", runner := "Node" }] }

/-- Witness for C8 at a concrete input: `beforeAllLesson` with an
always-failing hook oracle — the hook failure is caught and dispatch still
happens. -/
theorem C8_beforeAll_once_before_workers_witness :
    (beforeAllLesson.beforeAll = some sampleHookNode) ∧
    (∀ r ∈ testerRunners beforeAllLesson, r = sampleHookNode.runner) ∧
    (∃ rest,
      (runTests (fun _ => true) sampleProject beforeAllLesson).1 =
        runHookCaught (fun _ => true) "before-all" sampleHookNode ++ rest ∧
      ((runHookCaught (fun _ => true) "before-all" sampleHookNode).filter
          isBeforeAllStart).length = 1 ∧
      (∀ e ∈ runHookCaught (fun _ => true) "before-all" sampleHookNode, ∀ n,
        e ≠ Event.spawnWorker n) ∧
      rest.filter isBeforeAllStart = [] ∧
      Event.updateTests
          (initTestsState beforeAllLesson sampleProject.blockingTests) ∈
        rest ∧
      (∀ i < beforeAllLesson.tests.length, Event.postMessage i ∈ rest)) :=
  ⟨by decide, by decide,
   C8_beforeAll_once_before_workers (fun _ => true) sampleProject
     beforeAllLesson sampleHookNode (by decide) (by decide)⟩

/-- An empty lesson: every hook absent and no tests. -/
def emptyLesson : Lesson :=
  { beforeAll := none, beforeEach := none, afterAll := none,
    afterEach := none, hints := [], tests := [] }

/-- Claim C10: for a lesson whose hooks are all absent and whose test list is
empty, `runTests` does not crash: the TypeError raised while resolving the
first runner id is caught by the top-level handler and logged, the function
returns normally, and the trace holds nothing but the two error logs — no
worker spawn, no state publish, no plugin lifecycle event. -/
theorem C10_empty_lesson_no_crash (fails : Hook → Bool) (project : Project)
    (lesson : Lesson) (h1 : lesson.beforeAll = none)
    (h2 : lesson.beforeEach = none) (h3 : lesson.afterAll = none)
    (h4 : lesson.afterEach = none) (h5 : lesson.tests = []) :
    runTests fails project lesson =
      ([Event.logError "Test Error: ", Event.logError typeErrorMsg], []) ∧
    (∀ e ∈ (runTests fails project lesson).1, ∃ m, e = Event.logError m) := by
  have ht : testerRunners lesson = [] := by
    simp [testerRunners, h1, h2, h3, h4, h5]
  have heq : runTests fails project lesson =
      ([Event.logError "Test Error: ", Event.logError typeErrorMsg], []) := by
    unfold runTests
    rw [ht]
    rfl
  refine ⟨heq, ?_⟩
  intro e he
  have h6 : (runTests fails project lesson).1 =
      [Event.logError "Test Error: ", Event.logError typeErrorMsg] := by
    rw [heq]
  rw [h6] at he
  simp at he
  rcases he with h7 | h7 <;> exact ⟨_, h7⟩

/-- Witness for C10 at the concrete `emptyLesson`. -/
theorem C10_empty_lesson_no_crash_witness :
    (emptyLesson.beforeAll = none) ∧ (emptyLesson.beforeEach = none) ∧
    (emptyLesson.afterAll = none) ∧ (emptyLesson.afterEach = none) ∧
    (emptyLesson.tests = []) ∧
    (runTests (fun _ => false) sampleProject emptyLesson =
      ([Event.logError "Test Error: ", Event.logError typeErrorMsg], []) ∧
    (∀ e ∈ (runTests (fun _ => false) sampleProject emptyLesson).1,
      ∃ m, e = Event.logError m)) :=
  ⟨rfl, rfl, rfl, rfl, rfl,
   C10_empty_lesson_no_crash (fun _ => false) sampleProject emptyLesson
     rfl rfl rfl rfl rfl⟩

/-- Claim C9: when a worker message carries an error with a message, the
message-handling path publishes the localized message when the localization
collaborator returns a non-empty translation, and the original message
unchanged when the collaborator returns `undefined` or an empty string; in
both cases the test is settled (`isLoading = false`) with its reported
`passed` value. -/
theorem C9_error_localization (fails : Hook → Bool)
    (translate : String → Option String) (msg : WorkerMsg)
    (testsState : List TestState) (project : Project) (hints : List String)
    (lessonNumber : Nat) (afterAll : Option Hook) (pool : List WorkerHandle)
    (t : TestState) (e : ErrObj)
    (ht : testsState[msg.testId]? = some t) (he : msg.error = some e)
    (hm : e.message ≠ "") :
    (workerMessage fails translate msg testsState project hints lessonNumber
        afterAll pool).1[msg.testId]? =
      some { t with isLoading := false, passed := msg.passed } ∧
    (∀ s, translate e.message = some s → s ≠ "" →
      Event.updateConsoleError
          { t with isLoading := false, passed := msg.passed } s ∈
        (workerMessage fails translate msg testsState project hints
          lessonNumber afterAll pool).2.2) ∧
    (translate e.message = none →
      Event.updateConsoleError
          { t with isLoading := false, passed := msg.passed } e.message ∈
        (workerMessage fails translate msg testsState project hints
          lessonNumber afterAll pool).2.2) ∧
    (translate e.message = some "" →
      Event.updateConsoleError
          { t with isLoading := false, passed := msg.passed } e.message ∈
        (workerMessage fails translate msg testsState project hints
          lessonNumber afterAll pool).2.2) := by
  have hidx : msg.testId < testsState.length :=
    (List.getElem?_eq_some.mp ht).1
  have heq : workerMessage fails translate msg testsState project hints
      lessonNumber afterAll pool =
      (testsState.set msg.testId
        { t with isLoading := false, passed := msg.passed },
       (checkTestsCallback fails project hints lessonNumber
         (testsState.set msg.testId
           { t with isLoading := false, passed := msg.passed })
         afterAll pool).1,
       ((if e.errType ≠ "AssertionError" then
           [Event.logTestError msg.testId] else []) ++
         [Event.updateConsoleError
           { t with isLoading := false, passed := msg.passed }
           (localizedMessage translate e.message)]) ++
         [Event.updateTest
           { t with isLoading := false, passed := msg.passed }] ++
         (checkTestsCallback fails project hints lessonNumber
           (testsState.set msg.testId
             { t with isLoading := false, passed := msg.passed })
           afterAll pool).2) := by
    unfold workerMessage
    simp only [ht, he]
    simp [hm]
  refine ⟨?_, ?_, ?_, ?_⟩
  · rw [heq]
    simp [List.getElem?_set_self, hidx]
  · intro s hs hs'
    have hl : localizedMessage translate e.message = s := by
      simp [localizedMessage, hs, hs']
    rw [heq]
    simp [hl]
  · intro hs
    have hl : localizedMessage translate e.message = e.message := by
      simp [localizedMessage, hs]
    rw [heq]
    simp [hl]
  · intro hs
    have hl : localizedMessage translate e.message = e.message := by
      simp [localizedMessage, hs]
    rw [heq]
    simp [hl]

/-- A sample localization collaborator: translates the key `k` to `loc`. -/
def sampleTranslate : String → Option String :=
  fun m => if m = "k" then some "loc" else none

/-- A sample error object: a failed assertion with message key `k`. -/
def sampleErr : ErrObj :=
  { errType := "AssertionError", message := "k" }

/-- A sample worker message reporting test 0 as passed with an error. -/
def sampleWorkerMsg : WorkerMsg :=
  { passed := true, testId := 0, error := some sampleErr }

/-- A single still-loading test state, used by concrete witnesses. -/
def loadingState : List TestState :=
  [{ passed := false, testText := "t0", testId := 0, isLoading := true }]

/-- The state of test 0 after `sampleWorkerMsg` is handled. -/
def settledReported : TestState :=
  { passed := true, testText := "t0", testId := 0, isLoading := false }

/-- Witness for C9 at a concrete input: a failed assertion on test 0 whose
message has a non-empty translation. -/
theorem C9_error_localization_witness :
    (loadingState[sampleWorkerMsg.testId]? =
      some { passed := false, testText := "t0", testId := 0,
             isLoading := true }) ∧
    (sampleWorkerMsg.error = some sampleErr) ∧
    (sampleErr.message ≠ "") ∧
    ((workerMessage (fun _ => false) sampleTranslate sampleWorkerMsg
        loadingState sampleProject [] 0 none []).1[sampleWorkerMsg.testId]? =
      some settledReported ∧
    (∀ s, sampleTranslate sampleErr.message = some s → s ≠ "" →
      Event.updateConsoleError settledReported s ∈
        (workerMessage (fun _ => false) sampleTranslate sampleWorkerMsg
          loadingState sampleProject [] 0 none []).2.2) ∧
    (sampleTranslate sampleErr.message = none →
      Event.updateConsoleError settledReported sampleErr.message ∈
        (workerMessage (fun _ => false) sampleTranslate sampleWorkerMsg
          loadingState sampleProject [] 0 none []).2.2) ∧
    (sampleTranslate sampleErr.message = some "" →
      Event.updateConsoleError settledReported sampleErr.message ∈
        (workerMessage (fun _ => false) sampleTranslate sampleWorkerMsg
          loadingState sampleProject [] 0 none []).2.2)) :=
  ⟨by decide, by decide, by decide,
   C9_error_localization (fun _ => false) sampleTranslate sampleWorkerMsg
     loadingState sampleProject [] 0 none []
     { passed := false, testText := "t0", testId := 0, isLoading := true }
     sampleErr (by decide) (by decide) (by decide)⟩

lemma decisionEvents_filter_isAfterAllStart (project : Project)
    (hints : List String) (lessonNumber : Nat) (testsState : List TestState) :
    (decisionEvents project hints lessonNumber testsState).filter
      isAfterAllStart = [] := by
  unfold decisionEvents
  split
  · split <;> simp [isAfterAllStart]
  · simp [isAfterAllStart]

lemma runHookCaught_filter_isAfterAllStart (fails : Hook → Bool) (h : Hook) :
    (runHookCaught fails "after-all" h).filter isAfterAllStart =
      [Event.hookStart "after-all"] := by
  unfold runHookCaught
  split <;> simp [isAfterAllStart]

/-- Counterexample to C1 as stated: re-invoking the aggregation check with
the same fully-settled `testsState` runs the `afterAll` hook again — two
consecutive invocations attempt the hook twice, which contradicts the
claimed "does not run `afterAll` a second time". -/
theorem C1_counterexample :
    ¬ (((checkTwice (fun _ => false) sampleProject [] 0 settledPassedState
        (some sampleHookNode) []).2.filter isAfterAllStart).length ≤ 1) := by
  decide

/-- Claim C1 (amended): invoking the aggregation check again with the same
fully-settled `testsState` yields the same progression decision — the whole
event trace of the second invocation is identical to the first — but
`afterAll` and the tests-end notification fire once per invocation: the
check carries no once-guard, so a re-invocation runs `afterAll` a second
time (two attempts across the two invocations). -/
theorem C1_amended_rerun_behaviour (fails : Hook → Bool) (project : Project)
    (hints : List String) (lessonNumber : Nat) (testsState : List TestState)
    (afterAll : Option Hook) (pool : List WorkerHandle) (hk : Hook)
    (hsettled : testsState.all (fun t => !t.isLoading) = true)
    (hAA : afterAll = some hk) :
    (checkTestsCallback fails project hints lessonNumber testsState afterAll
        (checkTestsCallback fails project hints lessonNumber testsState
          afterAll pool).1).2 =
      (checkTestsCallback fails project hints lessonNumber testsState afterAll
        pool).2 ∧
    ((checkTestsCallback fails project hints lessonNumber testsState afterAll
        pool).2.filter isAfterAllStart).length = 1 ∧
    Event.onTestsEnd testsState ∈
      (checkTestsCallback fails project hints lessonNumber testsState afterAll
        pool).2 ∧
    ((checkTwice fails project hints lessonNumber testsState afterAll
        pool).2.filter isAfterAllStart).length = 2 := by
  have hcount : ∀ pl : List WorkerHandle,
      ((checkTestsCallback fails project hints lessonNumber testsState
        afterAll pl).2.filter isAfterAllStart).length = 1 := by
    intro pl
    rw [checkEvents_eq]
    rw [if_pos hsettled]
    rw [List.filter_append, List.filter_append]
    rw [decisionEvents_filter_isAfterAllStart]
    have h2 : (hookEvents fails "after-all" afterAll).filter
        isAfterAllStart = [Event.hookStart "after-all"] := by
      rw [hAA]
      exact runHookCaught_filter_isAfterAllStart fails hk
    rw [h2]
    simp [isAfterAllStart]
  refine ⟨?_, hcount pool, ?_, ?_⟩
  · simp [checkTestsCallback, hsettled]
  · rw [checkEvents_eq, if_pos hsettled]
    simp
  · have htw : (checkTwice fails project hints lessonNumber testsState
        afterAll pool).2 =
        (checkTestsCallback fails project hints lessonNumber testsState
          afterAll pool).2 ++
        (checkTestsCallback fails project hints lessonNumber testsState
          afterAll (checkTestsCallback fails project hints lessonNumber
            testsState afterAll pool).1).2 := rfl
    rw [htw, List.filter_append, List.length_append, hcount, hcount]

/-- Witness for C1 (amended) at a concrete input: one settled, passed test
and a present `afterAll` hook. -/
theorem C1_amended_rerun_behaviour_witness :
    (settledPassedState.all (fun t => !t.isLoading) = true) ∧
    ((some sampleHookNode : Option Hook) = some sampleHookNode) ∧
    ((checkTestsCallback (fun _ => false) sampleProject [] 0
        settledPassedState (some sampleHookNode)
        (checkTestsCallback (fun _ => false) sampleProject [] 0
          settledPassedState (some sampleHookNode) []).1).2 =
      (checkTestsCallback (fun _ => false) sampleProject [] 0
        settledPassedState (some sampleHookNode) []).2 ∧
    ((checkTestsCallback (fun _ => false) sampleProject [] 0
        settledPassedState (some sampleHookNode) []).2.filter
          isAfterAllStart).length = 1 ∧
    Event.onTestsEnd settledPassedState ∈
      (checkTestsCallback (fun _ => false) sampleProject [] 0
        settledPassedState (some sampleHookNode) []).2 ∧
    ((checkTwice (fun _ => false) sampleProject [] 0 settledPassedState
        (some sampleHookNode) []).2.filter isAfterAllStart).length = 2) :=
  ⟨by decide, rfl,
   C1_amended_rerun_behaviour (fun _ => false) sampleProject [] 0
     settledPassedState (some sampleHookNode) [] sampleHookNode
     (by decide) rfl⟩

/-- A worker handle spawned by a different run (ghost run id 2, while the
run under consideration carries ghost id 1). -/
def otherRunWorker : WorkerHandle :=
  { name := "other-run-worker", runId := 2 }

/-- Counterexample to C7 as stated: at the terminal aggregation the code
clears the whole pool (`WORKER_POOL.splice(0, WORKER_POOL.length)`), so a
worker that does not belong to this run (ghost run id 2 ≠ 1) is removed
from the pool as well — not only the workers of this run. -/
theorem C7_counterexample :
    otherRunWorker ∈ [otherRunWorker] ∧ otherRunWorker.runId ≠ 1 ∧
    settledPassedState.all (fun t => !t.isLoading) = true ∧
    (checkTestsCallback (fun _ => false) sampleProject [] 0 settledPassedState
      none [otherRunWorker]).1 = [] := by
  decide

/-- Claim C7 (amended): at the terminal aggregation (every test settled),
after the decision events, the `afterAll` hook events and the tests-end
notification, the pool is emptied entirely — every worker in the pool is
removed, the workers of this run and any workers of other runs alike. -/
theorem C7_amended_pool_cleared (fails : Hook → Bool) (project : Project)
    (hints : List String) (lessonNumber : Nat) (testsState : List TestState)
    (afterAll : Option Hook) (pool : List WorkerHandle)
    (hsettled : testsState.all (fun t => !t.isLoading) = true) :
    (checkTestsCallback fails project hints lessonNumber testsState afterAll
        pool).1 = [] ∧
    (∀ w ∈ pool, w ∉
      (checkTestsCallback fails project hints lessonNumber testsState
        afterAll pool).1) ∧
    (checkTestsCallback fails project hints lessonNumber testsState afterAll
        pool).2 =
      decisionEvents project hints lessonNumber testsState ++
        hookEvents fails "after-all" afterAll ++
        [Event.onTestsEnd testsState, Event.clearPool] := by
  refine ⟨?_, ?_, ?_⟩ <;> simp [checkTestsCallback, hsettled]

/-- Witness for C7 (amended) at a concrete input: a pool holding a foreign
worker is emptied by the terminal aggregation. -/
theorem C7_amended_pool_cleared_witness :
    (settledPassedState.all (fun t => !t.isLoading) = true) ∧
    ((checkTestsCallback (fun _ => false) sampleProject [] 0
        settledPassedState none [otherRunWorker]).1 = [] ∧
    (∀ w ∈ [otherRunWorker], w ∉
      (checkTestsCallback (fun _ => false) sampleProject [] 0
        settledPassedState none [otherRunWorker]).1) ∧
    (checkTestsCallback (fun _ => false) sampleProject [] 0
        settledPassedState none [otherRunWorker]).2 =
      decisionEvents sampleProject [] 0 settledPassedState ++
        hookEvents (fun _ => false) "after-all" none ++
        [Event.onTestsEnd settledPassedState, Event.clearPool]) :=
  ⟨by decide,
   C7_amended_pool_cleared (fun _ => false) sampleProject [] 0
     settledPassedState none [otherRunWorker] (by decide)⟩
